import Mathlib

/-!
Verification of the News-Summarizer script (summarizer.py).

This file shallowly embeds the code of the repository in Lean: the
news-fetch function get_news, the tool-dispatch routine
call_required_functions, the polling loop wait_for_completion together
with process_messages, and the AssistantManager state (cached assistant,
thread, run and summary fields). Remote HTTP effects are modelled by
explicit environments (a function from topic to HTTP outcome, a function
from poll index to run status) and by lists of issued remote calls, and
Python exceptions are modelled by an explicit error value threaded through
the results. Theorems at the end of the file check the specification
sentence by sentence against these definitions.
-/

/-- Python exception values raised by the embedded code paths. -/
inductive PyErr where
  | transportError (msg : String)
  | jsonDecodeError
  | keyError (key : String)
  | indexError
  | attributeError
  | valueError (fmt : String) (arg : String)
deriving DecidableEq

/-- Text of an exception as interpolated into the error log line of
get_news. The exact wording of each message is not load-bearing for any
theorem below. -/
def pyErrStr : PyErr → String
  | PyErr.transportError m => m
  | PyErr.jsonDecodeError => "Expecting value"
  | PyErr.keyError k => k
  | PyErr.indexError => "list index out of range"
  | PyErr.attributeError => "NoneType attribute access"
  | PyErr.valueError f a => f ++ " " ++ a

/-- The source object inside one article of the news JSON body. The field
name models the Python dict key "name": outer none means the key is absent
(dict access raises KeyError), some none means the key is present with
JSON null, some (some s) means it is present with string s. -/
structure RawSource where
  name : Option (Option String)
deriving DecidableEq

/-- One element of the articles array of the news JSON body. Each field
uses the same Option (Option String) convention as RawSource: outer none
is an absent key, inner none is JSON null. The source field holds the
nested source object when its key is present. -/
structure RawArticle where
  title : Option (Option String)
  author : Option (Option String)
  url : Option (Option String)
  source : Option RawSource
  content : Option (Option String)
  description : Option (Option String)
deriving DecidableEq

/-- The record built by get_news for one article: the Python dict with
keys title, author, url, source, content, description, where source holds
the nested source name. A none value models Python None. -/
structure Article where
  title : Option String
  author : Option String
  url : Option String
  source : Option String
  content : Option String
  description : Option String
deriving DecidableEq

/-- JSON body of an HTTP response as far as get_news inspects it:
malformed models a body on which response.json() raises, noArticlesKey a
JSON object without the articles key (the lookup raises KeyError), and
articles a body carrying the articles array. -/
inductive Body where
  | malformed
  | noArticlesKey
  | articles (arts : List RawArticle)
deriving DecidableEq

/-- Outcome of the HTTP request issued by get_news: either requests.get
raised (exn) or a response with a status code and a body came back. -/
inductive HttpResult where
  | exn (e : PyErr)
  | resp (status : Nat) (body : Body)
deriving DecidableEq

/-- Building of the items dict for one article, in the evaluation order of
the Python dict literal: each absent key raises KeyError, which the
embedding returns as an error value. -/
def extractArticle (a : RawArticle) : Except PyErr Article :=
  match a.title with
  | none => Except.error (PyErr.keyError "title")
  | some t =>
  match a.author with
  | none => Except.error (PyErr.keyError "author")
  | some au =>
  match a.url with
  | none => Except.error (PyErr.keyError "url")
  | some u =>
  match a.source with
  | none => Except.error (PyErr.keyError "source")
  | some src =>
  match src.name with
  | none => Except.error (PyErr.keyError "name")
  | some sn =>
  match a.content with
  | none => Except.error (PyErr.keyError "content")
  | some ct =>
  match a.description with
  | none => Except.error (PyErr.keyError "description")
  | some ds =>
    Except.ok { title := t, author := au, url := u, source := sn,
                content := ct, description := ds }

/-- The results-building loop of get_news: articles are mapped in order;
the first KeyError aborts the whole loop (the partial results list is
discarded because the exception escapes to the handler). -/
def extractAll : List RawArticle → Except PyErr (List Article)
  | [] => Except.ok []
  | a :: rest =>
    match extractArticle a with
    | Except.error e => Except.error e
    | Except.ok x =>
      match extractAll rest with
      | Except.error e => Except.error e
      | Except.ok xs => Except.ok (x :: xs)

/-- Body of get_news inside its try block, for a given topic and the HTTP
outcome of the GET on the URL built from that topic. An ok result carries
the returned list together with the log lines written on the non-200
branch; an error result is an exception reaching the except handler. -/
def get_news_try (topic : String) (r : HttpResult) :
    Except PyErr (List Article × List String) :=
  match r with
  | HttpResult.exn e => Except.error e
  | HttpResult.resp status body =>
    if status = 200 then
      match body with
      | Body.malformed => Except.error PyErr.jsonDecodeError
      | Body.noArticlesKey => Except.error (PyErr.keyError "articles")
      | Body.articles arts =>
        match extractAll arts with
        | Except.ok results => Except.ok (results, [])
        | Except.error e => Except.error e
    else Except.ok ([], ["Failed to fetch news"])

/-- Embedding of get_news: the try body with the except-Exception handler
wrapped around it, which logs and returns the empty list. The function is
total, which models that no exception ever escapes to the caller. The
topic parameter stands for the query interpolated into the request URL;
r is the outcome of the HTTP GET on that URL. -/
def get_news (topic : String) (r : HttpResult) : List Article × List String :=
  match get_news_try topic r with
  | Except.ok out => out
  | Except.error e => ([], ["Failed to fetch news: " ++ pyErrStr e])

/-- An article element has all six keys that the items dict reads,
including the name key of the nested source object; their values may
still be JSON null. -/
def hasAllKeys (a : RawArticle) : Bool :=
  a.title.isSome && a.author.isSome && a.url.isSome &&
    (match a.source with
     | some s => s.name.isSome
     | none => false) &&
    a.content.isSome && a.description.isSome

/-- Field-by-field mapping of an article whose keys are all present:
each value is carried over, JSON null becoming an absent value. -/
def toArticle (a : RawArticle) : Article :=
  { title := a.title.join
    author := a.author.join
    url := a.url.join
    source := (a.source.bind RawSource.name).join
    content := a.content.join
    description := a.description.join }

/-- Success test on the extraction of the articles list. -/
def exceptOk : Except PyErr (List Article) → Bool
  | Except.ok _ => true
  | Except.error _ => false

/-- Failure conditions of a news fetch: the transport raised, the status
code is not 200, or the 200 body raises during parsing or extraction. -/
def fetchFails : HttpResult → Bool
  | HttpResult.exn _ => true
  | HttpResult.resp status body =>
    if status = 200 then
      match body with
      | Body.malformed => true
      | Body.noArticlesKey => true
      | Body.articles arts => !(exceptOk (extractAll arts))
    else true

/-- Python repr of an optional string value inside the items dict, as
produced by str on the dict: None for null, the value between single
quotes otherwise. String escaping of special characters inside the value
is not modelled; no theorem below depends on this text. -/
def pyReprOpt : Option String → String
  | none => "None"
  | some s => "\x27" ++ s ++ "\x27"

/-- Python str of one items dict, in the insertion order of its keys. -/
def pyStrArticle (a : Article) : String :=
  "\x7b\x27title\x27: " ++ pyReprOpt a.title ++
    ", \x27author\x27: " ++ pyReprOpt a.author ++
    ", \x27url\x27: " ++ pyReprOpt a.url ++
    ", \x27source\x27: " ++ pyReprOpt a.source ++
    ", \x27content\x27: " ++ pyReprOpt a.content ++
    ", \x27description\x27: " ++ pyReprOpt a.description ++ "\x7d"

/-- The final string built for a tool output: the empty-separator join of
str over the list returned by get_news. -/
def strOutput (l : List Article) : String :=
  String.join (l.map pyStrArticle)

/-- Result of json.loads on the arguments string of a tool call:
malformed models a string on which json.loads raises, object a parsed
dict whose topic key is either absent or a string. -/
inductive ArgsJson where
  | malformed
  | object (topic : Option String)
deriving DecidableEq

/-- One pending tool call of a requires-action run. -/
structure ToolCall where
  id : String
  funcName : String
  arguments : ArgsJson
deriving DecidableEq

/-- One entry of the tool-outputs list submitted back to the run. -/
structure ToolOutput where
  tool_call_id : String
  output : String
deriving DecidableEq

/-- A tool call that the get_news branch of the dispatcher handles
without raising: named get_news, with parseable arguments carrying a
topic key. -/
def goodNewsCall (c : ToolCall) : Bool :=
  (c.funcName == "get_news") &&
    (match c.arguments with
     | ArgsJson.object (some _) => true
     | _ => false)

/-- The for loop of call_required_functions. The acc parameter is the
tool-outputs list being appended to; submitted collects, in order, the
batches passed to submit-tool-outputs, one per loop iteration that
reaches the submit call (the submit statement sits inside the loop body
in the source). json.loads runs before the function-name test; an
unknown name raises ValueError carrying the name; a get_news call reads
the topic key, runs get_news against the outside world and appends the
joined string output. The returned error value, when present, is the
exception that aborts the loop. -/
def callLoop (world : String → HttpResult) (acc : List ToolOutput)
    (submitted : List (List ToolOutput)) :
    List ToolCall → List (List ToolOutput) × Option PyErr
  | [] => (submitted, none)
  | c :: rest =>
    match c.arguments with
    | ArgsJson.malformed => (submitted, some PyErr.jsonDecodeError)
    | ArgsJson.object topicOpt =>
      if c.funcName = "get_news" then
        match topicOpt with
        | none => (submitted, some (PyErr.keyError "topic"))
        | some t =>
          let out := strOutput (get_news t (world t)).1
          let acc2 := acc ++ [⟨c.id, out⟩]
          callLoop world acc2 (submitted ++ [acc2]) rest
      else
        (submitted, some (PyErr.valueError "Unknown function: %s" c.funcName))

/-- Embedding of call_required_functions: the early return when no run is
stored, then the dispatch loop. The result pairs the submitted batches
with the exception, if any, that escaped. -/
def call_required_functions (world : String → HttpResult) (runPresent : Bool)
    (calls : List ToolCall) : List (List ToolOutput) × Option PyErr :=
  if runPresent then callLoop world [] [] calls else ([], none)

/-- One message of the thread history: its role and the list of text
values of its content blocks. -/
structure Message where
  role : String
  content : List String
deriving DecidableEq

/-- Core of process_messages once the thread guard passed, over the
listed message history. The first component is the value assigned to the
summary field (none when the assignment was never reached), the second
the exception raised, if any: indexing data at 0 on an empty history or
content at 0 on an empty content list raises IndexError; the final
logging loop indexes content at 0 of every message, so an empty content
list further down raises after the summary was already assigned. The
assigned summary is the newline join of the one-element list holding the
text of the head message, hence that text itself. -/
def process_messages_core (msgs : List Message) : Option String × Option PyErr :=
  match msgs with
  | [] => (none, some PyErr.indexError)
  | m :: _ =>
    match m.content with
    | [] => (none, some PyErr.indexError)
    | c :: _ =>
      if msgs.all (fun m2 => !m2.content.isEmpty) then (some c, none)
      else (some c, some PyErr.indexError)

/-- One polled run object: its status string, and the pending tool calls
under required-action submit-tool-outputs (read only when the status is
requires-action). -/
structure RunPoll where
  status : String
  toolCalls : List ToolCall
deriving DecidableEq

/-- Outcome of the polling loop when it returns. -/
inductive LoopOutcome where
  | skipped
  | completedOk (summary : Option String) (submissions : List (List ToolOutput))
  | raisedErr (e : PyErr) (summary : Option String)
      (submissions : List (List ToolOutput))
deriving DecidableEq

/-- The while-True polling loop of wait_for_completion, with fuel
counting the remaining polls: a none result means the loop is still
running after that many polls. poll gives the run object fetched at each
iteration, msgs the thread history read on completion, subs the batches
submitted so far. A completed status runs process_messages and breaks; a
requires-action status dispatches the pending tool calls and loops; every
other status falls through both tests and loops. -/
def waitLoop (world : String → HttpResult) (poll : Nat → RunPoll)
    (msgs : List Message) :
    Nat → Nat → List (List ToolOutput) → Option LoopOutcome
  | 0, _, _ => none
  | fuel + 1, i, subs =>
    if (poll i).status = "completed" then
      match process_messages_core msgs with
      | (s, none) => some (LoopOutcome.completedOk s subs)
      | (s, some e) => some (LoopOutcome.raisedErr e s subs)
    else if (poll i).status = "requires_action" then
      match call_required_functions world true (poll i).toolCalls with
      | (newSubs, none) => waitLoop world poll msgs fuel (i + 1) (subs ++ newSubs)
      | (newSubs, some e) =>
        some (LoopOutcome.raisedErr e none (subs ++ newSubs))
    else waitLoop world poll msgs fuel (i + 1) subs

/-- Embedding of wait_for_completion: the guard on the thread and run
fields, then the polling loop started with no submissions. -/
def wait_for_completion (world : String → HttpResult)
    (threadPresent runPresent : Bool) (poll : Nat → RunPoll)
    (msgs : List Message) (fuel : Nat) : Option LoopOutcome :=
  if threadPresent && runPresent then waitLoop world poll msgs fuel 0 []
  else some LoopOutcome.skipped

/-- Remote calls issued against the assistant platform, as far as the
embedded methods perform them. The tools argument of assistant creation
is carried as one opaque string. -/
inductive RemoteCall where
  | assistantsCreate (name instructions tools : String)
  | threadsCreate
  | messagesCreate (threadId role content : String)
  | runsCreate (threadId assistantId instructions : String)
  | messagesList (threadId : String)
  | submitToolOutputs (threadId runId : String) (outputs : List ToolOutput)
  | runStepsList (threadId runId : String)
deriving DecidableEq

/-- Identifiers the remote side hands back on creation calls. -/
structure RemoteEnv where
  newAssistantId : String
  newThreadId : String
  newRunId : String
deriving DecidableEq

/-- State of one AssistantManager instance together with the two
class-level cached identifiers. The assistant, thread and run fields
model the remote objects held by the instance through their ids; none
models Python None. -/
structure AMState where
  class_assistant_id : Option String
  class_thread_id : Option String
  assistant : Option String
  thread : Option String
  run : Option String
  summary : Option String
deriving DecidableEq

/-- Result of one method call on the manager: the new state, the remote
calls issued, and the exception raised, if any. -/
structure MethodResult where
  state : AMState
  remote : List RemoteCall
  err : Option PyErr
deriving DecidableEq

/-- Embedding of the constructor: the summary, run fields start as None;
the assistant and thread fields are retrieved from the class-level cached
ids when those are set. -/
def amInit (classAssistantId classThreadId : Option String) : AMState :=
  { class_assistant_id := classAssistantId
    class_thread_id := classThreadId
    assistant := classAssistantId
    thread := classThreadId
    run := none
    summary := none }

/-- Embedding of create_assistant: remote creation runs only when the
instance holds no assistant; the new id is stored on the instance and in
the class-level cache. -/
def create_assistant (env : RemoteEnv) (st : AMState)
    (name instructions tools : String) : MethodResult :=
  match st.assistant with
  | some _ => ⟨st, [], none⟩
  | none =>
    ⟨{ st with assistant := some env.newAssistantId
               class_assistant_id := some env.newAssistantId },
      [RemoteCall.assistantsCreate name instructions tools], none⟩

/-- Embedding of create_thread, analogous to create_assistant. -/
def create_thread (env : RemoteEnv) (st : AMState) : MethodResult :=
  match st.thread with
  | some _ => ⟨st, [], none⟩
  | none =>
    ⟨{ st with thread := some env.newThreadId
               class_thread_id := some env.newThreadId },
      [RemoteCall.threadsCreate], none⟩

/-- Embedding of add_message_to_thread: when a thread is held the message
is created remotely; when none is held the method returns silently,
issuing no call and raising nothing. -/
def add_message_to_thread (st : AMState) (role content : String) :
    MethodResult :=
  match st.thread with
  | some tid => ⟨st, [RemoteCall.messagesCreate tid role content], none⟩
  | none => ⟨st, [], none⟩

/-- Embedding of run_assistant: when both a thread and an assistant are
held a run is created and stored; otherwise the method returns silently,
issuing no call and raising nothing. -/
def run_assistant (env : RemoteEnv) (st : AMState) (instructions : String) :
    MethodResult :=
  match st.thread, st.assistant with
  | some tid, some aid =>
    ⟨{ st with run := some env.newRunId },
      [RemoteCall.runsCreate tid aid instructions], none⟩
  | _, _ => ⟨st, [], none⟩

/-- Embedding of process_messages as a method: guarded on the thread
field; when it runs, the summary field receives the value computed by the
core over the listed history, unless the IndexError fired before the
assignment. -/
def process_messages_m (st : AMState) (msgs : List Message) : MethodResult :=
  match st.thread with
  | none => ⟨st, [], none⟩
  | some tid =>
    match process_messages_core msgs with
    | (none, e) => ⟨st, [RemoteCall.messagesList tid], e⟩
    | (some s, e) =>
      ⟨{ st with summary := some s }, [RemoteCall.messagesList tid], e⟩

/-- Embedding of call_required_functions as a method: the early return
when no run is held, then the dispatch loop; each submitted batch becomes
a submit-tool-outputs remote call. The instance fields are never written.
The thread id interpolated into the submit calls defaults to the empty
string when no thread is held, standing in for the attribute error that
the source would raise in that never-exercised configuration. -/
def call_required_m (world : String → HttpResult) (st : AMState)
    (calls : List ToolCall) : MethodResult :=
  match st.run with
  | none => ⟨st, [], none⟩
  | some rid =>
    let r := callLoop world [] [] calls
    ⟨st, r.1.map (fun b =>
        RemoteCall.submitToolOutputs (st.thread.getD "") rid b), r.2⟩

/-- Embedding of run_steps: lists the steps of the held run; with no
thread or run held the attribute access on None raises. -/
def run_steps_m (st : AMState) : MethodResult :=
  match st.thread, st.run with
  | some tid, some rid => ⟨st, [RemoteCall.runStepsList tid rid], none⟩
  | _, _ => ⟨st, [], some PyErr.attributeError⟩

/-- Embedding of get_summary: returns the summary field. -/
def get_summary (st : AMState) : Option String :=
  st.summary

/-- One method invocation on the manager, for traces of calls. -/
inductive AMOp where
  | opCreateAssistant (name instructions tools : String)
  | opCreateThread
  | opAddMessage (role content : String)
  | opRunAssistant (instructions : String)
  | opCallRequired (calls : List ToolCall)
  | opProcessMessages (msgs : List Message)
  | opRunSteps
deriving DecidableEq

/-- State reached after one method invocation. -/
def amStep (env : RemoteEnv) (world : String → HttpResult) (st : AMState) :
    AMOp → AMState
  | AMOp.opCreateAssistant n i t => (create_assistant env st n i t).state
  | AMOp.opCreateThread => (create_thread env st).state
  | AMOp.opAddMessage r c => (add_message_to_thread st r c).state
  | AMOp.opRunAssistant i => (run_assistant env st i).state
  | AMOp.opCallRequired calls => (call_required_m world st calls).state
  | AMOp.opProcessMessages msgs => (process_messages_m st msgs).state
  | AMOp.opRunSteps => (run_steps_m st).state

/-- Test for the one method that assigns the summary field. -/
def isProcessMessagesOp : AMOp → Bool
  | AMOp.opProcessMessages _ => true
  | _ => false

/-- Concrete article with every key present, some values null. -/
def sampleArticleA : RawArticle :=
  { title := some (some "BTC rallies")
    author := some none
    url := some (some "https://example.org/a")
    source := some { name := some (some "Example") }
    content := some (some "Bitcoin rallied today.")
    description := some (some "Market report") }

/-- Concrete article with every key present and no null value. -/
def sampleArticleB : RawArticle :=
  { title := some (some "ETH steady")
    author := some (some "R. Writer")
    url := some (some "https://example.org/b")
    source := some { name := some (some "Example") }
    content := some (some "Ether traded flat.")
    description := some (some "Second report") }

/-- Concrete article whose author key is entirely absent. -/
def articleMissingAuthor : RawArticle :=
  { title := some (some "Headline")
    author := none
    url := some (some "https://example.org/c")
    source := some { name := some (some "Example") }
    content := some (some "Body text.")
    description := some (some "Desc") }

/-- Two-article well-formed response body used by witnesses. -/
def sampleArts : List RawArticle :=
  [sampleArticleA, sampleArticleB]

/-- A requires-action cycle carrying two get_news tool calls. -/
def twoNewsCalls : List ToolCall :=
  [⟨"call1", "get_news", ArgsJson.object (some "Crypto")⟩,
   ⟨"call2", "get_news", ArgsJson.object (some "AI")⟩]

/-- A world whose news endpoint is down for every topic. -/
def downWorld : String → HttpResult :=
  fun _ => HttpResult.exn (PyErr.transportError "connection refused")

/-- Message history used by the completion witnesses. -/
def sampleMsgs : List Message :=
  [⟨"assistant", ["BTC rallied"]⟩, ⟨"user", ["Summarize crypto news"]⟩]

/-- Trace of method calls containing no process_messages invocation. -/
def sampleOps : List AMOp :=
  [AMOp.opCreateAssistant "news" "summarize" "tools",
   AMOp.opCreateThread,
   AMOp.opAddMessage "user" "Summarize crypto news",
   AMOp.opRunAssistant "be brief",
   AMOp.opCallRequired twoNewsCalls]

/-- A call c of the unknown-name witness below. -/
def unknownCall : ToolCall :=
  ⟨"call9", "get_stocks", ArgsJson.object (some "AAPL")⟩

/-- A one-call well-formed prefix for the unknown-name witness below. -/
def goodPre : List ToolCall :=
  [⟨"call1", "get_news", ArgsJson.object (some "Crypto")⟩]

theorem extract_ok_of_keys (a : RawArticle) (h : hasAllKeys a = true) :
    extractArticle a = Except.ok (toArticle a) := by
  obtain ⟨t, au, u, s, c, d⟩ := a
  cases s with
  | none => simp [hasAllKeys] at h
  | some src =>
    obtain ⟨nm⟩ := src
    simp only [hasAllKeys, Bool.and_eq_true, Option.isSome_iff_exists] at h
    obtain ⟨⟨⟨⟨⟨⟨t2, ht⟩, au2, hau⟩, u2, hu⟩, n2, hn⟩, c2, hc⟩, d2, hd⟩ := h
    subst ht hau hu hn hc hd
    rfl

theorem extractAll_ok (arts : List RawArticle)
    (h : arts.all hasAllKeys = true) :
    extractAll arts = Except.ok (arts.map toArticle) := by
  induction arts with
  | nil => rfl
  | cons a rest ih =>
    rw [List.all_cons, Bool.and_eq_true] at h
    simp [extractAll, extract_ok_of_keys a h.1, ih h.2]

theorem extract_err_of_missing (a : RawArticle) (h : hasAllKeys a = false) :
    ∃ e, extractArticle a = Except.error e := by
  obtain ⟨t, au, u, s, c, d⟩ := a
  cases t with
  | none => exact ⟨_, rfl⟩
  | some t =>
  cases au with
  | none => exact ⟨_, rfl⟩
  | some au =>
  cases u with
  | none => exact ⟨_, rfl⟩
  | some u =>
  cases s with
  | none => exact ⟨_, rfl⟩
  | some src =>
  obtain ⟨nm⟩ := src
  cases nm with
  | none => exact ⟨_, rfl⟩
  | some nm =>
  cases c with
  | none => exact ⟨_, rfl⟩
  | some c =>
  cases d with
  | none => exact ⟨_, rfl⟩
  | some d => simp [hasAllKeys] at h

theorem extractAll_err (arts : List RawArticle)
    (h : arts.all hasAllKeys = false) :
    ∃ e, extractAll arts = Except.error e := by
  induction arts with
  | nil => simp [List.all_nil] at h
  | cons a rest ih =>
    cases hk : hasAllKeys a with
    | false =>
      obtain ⟨e, he⟩ := extract_err_of_missing a hk
      exact ⟨e, by simp [extractAll, he]⟩
    | true =>
      rw [List.all_cons, hk, Bool.true_and] at h
      obtain ⟨e, he⟩ := ih h
      exact ⟨e, by simp [extractAll, extract_ok_of_keys a hk, he]⟩

/-- Claim C3: for every topic and every failing fetch condition, whether a
non-200 status, a transport exception, or a body that raises while being
parsed, get_news returns the empty list and writes an error log line; the
totality of get_news models that no exception escapes to the caller. -/
theorem get_news_error_empty (topic : String) (r : HttpResult)
    (h : fetchFails r = true) :
    (get_news topic r).1 = [] ∧ (get_news topic r).2 ≠ [] := by
  cases r with
  | exn e => simp [get_news, get_news_try]
  | resp status body =>
    by_cases hs : status = 200
    · subst hs
      cases body with
      | malformed => simp [get_news, get_news_try]
      | noArticlesKey => simp [get_news, get_news_try]
      | articles arts =>
        have hfail : exceptOk (extractAll arts) = false := by
          simpa [fetchFails] using h
        cases hx : extractAll arts with
        | ok res => rw [hx] at hfail; simp [exceptOk] at hfail
        | error e => simp [get_news, get_news_try, hx]
    · simp [get_news, get_news_try, hs]

/-- Witness for claim C3 at a concrete failing input. -/
theorem get_news_error_empty_witness :
    fetchFails (HttpResult.resp 500 Body.malformed) = true ∧
    ((get_news "Crypto" (HttpResult.resp 500 Body.malformed)).1 = [] ∧
      (get_news "Crypto" (HttpResult.resp 500 Body.malformed)).2 ≠ []) :=
  ⟨rfl, get_news_error_empty "Crypto" (HttpResult.resp 500 Body.malformed) rfl⟩

/-- Claim C4, counterexample to the claim as stated: a 200 response whose
single article lacks the author key produces zero records, not one record
with an absent author value, because the KeyError aborts the whole
extraction and the handler returns the empty list. -/
theorem get_news_missing_key_counterexample :
    (get_news "Crypto"
        (HttpResult.resp 200 (Body.articles [articleMissingAuthor]))).1 = [] ∧
    [articleMissingAuthor].length = 1 :=
  ⟨rfl, rfl⟩

/-- Claim C4 as amended: a field key present with a null value maps to an
absent value in its record without being fatal and without changing the
record count, but an article whose field key is entirely absent makes the
extraction raise KeyError, which the handler turns into an empty result
list for the whole call; no exception reaches the caller either way. -/
theorem get_news_missing_key_amended (topic : String)
    (arts : List RawArticle) :
    (get_news topic (HttpResult.resp 200 (Body.articles arts))).1 =
      if arts.all hasAllKeys then arts.map toArticle else [] := by
  cases h : arts.all hasAllKeys with
  | true =>
    simp [get_news, get_news_try, extractAll_ok arts h]
  | false =>
    obtain ⟨e, he⟩ := extractAll_err arts h
    simp [get_news, get_news_try, he]

/-- Claim C5: for every topic and every well-formed 200 response, meaning
each article carries all six keys read by the mapping, get_news returns
exactly one record per article, in order, with each field value carried
over by toArticle. -/
theorem get_news_wellformed_preserves (topic : String)
    (arts : List RawArticle) (h : ∀ a ∈ arts, hasAllKeys a = true) :
    (get_news topic (HttpResult.resp 200 (Body.articles arts))).1 =
      arts.map toArticle ∧
    (get_news topic (HttpResult.resp 200 (Body.articles arts))).1.length =
      arts.length := by
  have hall : arts.all hasAllKeys = true := List.all_eq_true.mpr h
  have hok := extractAll_ok arts hall
  constructor
  · simp [get_news, get_news_try, hok]
  · simp [get_news, get_news_try, hok]

/-- Witness for claim C5 on a concrete two-article response. -/
theorem get_news_wellformed_preserves_witness :
    (∀ a ∈ sampleArts, hasAllKeys a = true) ∧
    ((get_news "Crypto" (HttpResult.resp 200 (Body.articles sampleArts))).1 =
        sampleArts.map toArticle ∧
      (get_news "Crypto"
          (HttpResult.resp 200 (Body.articles sampleArts))).1.length =
        sampleArts.length) :=
  ⟨by decide, get_news_wellformed_preserves "Crypto" sampleArts (by decide)⟩

theorem waitLoop_stuck (world : String → HttpResult) (msgs : List Message)
    (s : String) (h1 : ¬s = "completed") (h2 : ¬s = "requires_action") :
    ∀ (fuel i : Nat) (subs : List (List ToolOutput)),
      waitLoop world (fun _ => ⟨s, []⟩) msgs fuel i subs = none := by
  intro fuel
  induction fuel with
  | zero => intro i subs; rfl
  | succ n ih =>
    intro i subs
    simp only [waitLoop]
    rw [if_neg h1, if_neg h2]
    exact ih (i + 1) subs

/-- Claim C1: the polling loop has no branch for the terminal failure
statuses; on a run that reports failed, cancelled or expired at every
poll, the loop never returns to its caller, for any number of polls. The
specification requires the loop to exit and report the failure instead,
so this theorem exhibits the divergence of the code from the claim. -/
theorem wait_for_completion_diverges_on_terminal_failure
    (world : String → HttpResult) (msgs : List Message) (fuel : Nat) :
    wait_for_completion world true true (fun _ => ⟨"failed", []⟩) msgs fuel =
      none ∧
    wait_for_completion world true true (fun _ => ⟨"cancelled", []⟩) msgs fuel =
      none ∧
    wait_for_completion world true true (fun _ => ⟨"expired", []⟩) msgs fuel =
      none := by
  refine ⟨?_, ?_, ?_⟩ <;>
    · simp only [wait_for_completion, Bool.and_self, if_true]
      exact waitLoop_stuck world msgs _ (by decide) (by decide) fuel 0 []

/-- Claim C7: whenever the polled status is completed, the loop invokes
message processing, which takes the message at index 0 of the history as
the most recent one, assigns its first text content as the session
summary, and the loop exits successfully with that summary, provided the
history is nonempty and each listed message has a content block, so that
no IndexError fires. -/
theorem wait_loop_completed_sets_summary (world : String → HttpResult)
    (poll : Nat → RunPoll) (msgs : List Message) (fuel i : Nat)
    (subs : List (List ToolOutput)) (m : Message) (c : String)
    (hstatus : (poll i).status = "completed")
    (hm : msgs.head? = some m)
    (hc : m.content.head? = some c)
    (hall : ∀ m2 ∈ msgs, m2.content ≠ []) :
    waitLoop world poll msgs (fuel + 1) i subs =
      some (LoopOutcome.completedOk (some c) subs) := by
  cases msgs with
  | nil => simp at hm
  | cons m0 rest =>
    have hm0 : m0 = m := by simpa using hm
    have hc2 : m0.content.head? = some c := by rw [hm0]; exact hc
    cases hcc : m0.content with
    | nil => rw [hcc] at hc2; simp at hc2
    | cons c0 cs =>
      have hc0 : c0 = c := by rw [hcc] at hc2; simpa using hc2
      subst hc0
      have hall2 : (m0 :: rest).all (fun m2 => !m2.content.isEmpty) = true := by
        rw [List.all_eq_true]
        intro x hx
        have hxne := hall x hx
        simpa [List.isEmpty_iff] using hxne
      simp only [waitLoop]
      rw [if_pos hstatus]
      simp [process_messages_core, hcc, hall2]

/-- Witness for claim C7: a run that completes at the first poll, with a
two-message history headed by the newest assistant message. -/
theorem wait_loop_completed_sets_summary_witness :
    ((fun _ => (⟨"completed", []⟩ : RunPoll)) 0).status = "completed" ∧
    sampleMsgs.head? = some ⟨"assistant", ["BTC rallied"]⟩ ∧
    waitLoop downWorld (fun _ => ⟨"completed", []⟩) sampleMsgs 1 0 [] =
      some (LoopOutcome.completedOk (some "BTC rallied") []) :=
  ⟨rfl, rfl,
    wait_loop_completed_sets_summary downWorld (fun _ => ⟨"completed", []⟩)
      sampleMsgs 0 0 [] ⟨"assistant", ["BTC rallied"]⟩ "BTC rallied" rfl rfl
      rfl (by decide)⟩

/-- Claim C2: on a requires-action cycle with two pending get_news tool
calls, the dispatcher submits two tool-output batches, one per processed
call, the first batch holding only the first pair, because the submit
statement sits inside the dispatch loop; the claim of exactly one batched
submission per cycle fails on the code for any cycle with more than one
pending call. -/
theorem call_required_submits_per_call :
    call_required_functions downWorld true twoNewsCalls =
      ([[⟨"call1", ""⟩], [⟨"call1", ""⟩, ⟨"call2", ""⟩]], none) ∧
    (call_required_functions downWorld true twoNewsCalls).1.length = 2 :=
  ⟨rfl, rfl⟩

/-- Claim C8: posting a message with no thread held, and starting a run
with no assistant and no thread held, both return silently: the state is
unchanged, no remote call is issued, and no exception is raised, in
place of the precondition error the specification requires. -/
theorem add_message_run_assistant_silent_noop :
    add_message_to_thread (amInit none none) "user" "hello" =
      ⟨amInit none none, [], none⟩ ∧
    run_assistant ⟨"a1", "t1", "r1"⟩ (amInit none none) "run it" =
      ⟨amInit none none, [], none⟩ :=
  ⟨rfl, rfl⟩

/-- Claim C9: calling create_assistant twice in succession with the same
arguments performs remote creation at most once, the second call being a
no-op on an unchanged state because the cached assistant is reused, and
likewise for create_thread. -/
theorem create_assistant_thread_idempotent (env : RemoteEnv) (st : AMState)
    (name instructions tools : String) :
    (create_assistant env (create_assistant env st name instructions tools).state
        name instructions tools).remote = [] ∧
    (create_assistant env (create_assistant env st name instructions tools).state
        name instructions tools).state =
      (create_assistant env st name instructions tools).state ∧
    ((create_assistant env st name instructions tools).remote ++
        (create_assistant env
          (create_assistant env st name instructions tools).state
          name instructions tools).remote).length ≤ 1 ∧
    (create_thread env (create_thread env st).state).remote = [] ∧
    (create_thread env (create_thread env st).state).state =
      (create_thread env st).state ∧
    ((create_thread env st).remote ++
        (create_thread env (create_thread env st).state).remote).length ≤ 1 := by
  cases ha : st.assistant <;> cases ht : st.thread <;>
    simp [create_assistant, create_thread, ha, ht]

theorem amStep_preserves_summary (env : RemoteEnv)
    (world : String → HttpResult) (st : AMState) (op : AMOp)
    (h : isProcessMessagesOp op = false) :
    (amStep env world st op).summary = st.summary := by
  cases op with
  | opCreateAssistant n i t =>
    cases ha : st.assistant <;> simp [amStep, create_assistant, ha]
  | opCreateThread =>
    cases ht : st.thread <;> simp [amStep, create_thread, ht]
  | opAddMessage r c =>
    cases ht : st.thread <;> simp [amStep, add_message_to_thread, ht]
  | opRunAssistant i =>
    cases ht : st.thread <;> cases ha : st.assistant <;>
      simp [amStep, run_assistant, ht, ha]
  | opCallRequired calls =>
    cases hr : st.run <;> simp [amStep, call_required_m, hr]
  | opProcessMessages msgs => simp [isProcessMessagesOp] at h
  | opRunSteps =>
    cases ht : st.thread <;> cases hr : st.run <;>
      simp [amStep, run_steps_m, ht, hr]

theorem foldl_summary_none (env : RemoteEnv) (world : String → HttpResult) :
    ∀ (ops : List AMOp) (st : AMState),
      (∀ op ∈ ops, isProcessMessagesOp op = false) → st.summary = none →
      (ops.foldl (amStep env world) st).summary = none := by
  intro ops
  induction ops with
  | nil => intro st _ hst; simpa using hst
  | cons op rest ih =>
    intro st h hst
    have hop : isProcessMessagesOp op = false :=
      h op (List.mem_cons_self op rest)
    have hrest : ∀ o ∈ rest, isProcessMessagesOp o = false :=
      fun o ho => h o (List.mem_cons_of_mem op ho)
    rw [List.foldl_cons]
    exact ih (amStep env world st op) hrest
      (by rw [amStep_preserves_summary env world st op hop]; exact hst)

/-- Claim C10: the summary field is None at construction, for any cached
class-level ids the constructor starts from, and stays None across any
trace of method calls that never invokes process_messages, the only
method that assigns it; get_summary therefore returns None until
process_messages has executed. -/
theorem summary_none_until_process_messages (env : RemoteEnv)
    (world : String → HttpResult) (gA gT : Option String) (ops : List AMOp)
    (h : ∀ op ∈ ops, isProcessMessagesOp op = false) :
    get_summary (ops.foldl (amStep env world) (amInit gA gT)) = none :=
  foldl_summary_none env world ops (amInit gA gT) h rfl

/-- Witness for claim C10 on a concrete five-call trace covering every
method except process_messages that the trace type offers. -/
theorem summary_none_until_process_messages_witness :
    (∀ op ∈ sampleOps, isProcessMessagesOp op = false) ∧
    get_summary (sampleOps.foldl (amStep ⟨"a1", "t1", "r1"⟩ downWorld)
      (amInit none none)) = none :=
  ⟨by decide,
    summary_none_until_process_messages ⟨"a1", "t1", "r1"⟩ downWorld none none
      sampleOps (by decide)⟩

theorem callLoop_unknown_aux (world : String → HttpResult) (c : ToolCall)
    (post : List ToolCall) (topicOpt : Option String)
    (hname : ¬c.funcName = "get_news")
    (hargs : c.arguments = ArgsJson.object topicOpt) :
    ∀ (pre : List ToolCall) (acc : List ToolOutput)
      (subs : List (List ToolOutput)),
      (∀ d ∈ pre, goodNewsCall d = true) →
      (callLoop world acc subs (pre ++ c :: post)).2 =
          some (PyErr.valueError "Unknown function: %s" c.funcName) ∧
      ∀ b ∈ (callLoop world acc subs (pre ++ c :: post)).1, ∀ o ∈ b,
        (∃ b0 ∈ subs, o ∈ b0) ∨ o ∈ acc ∨
          o.tool_call_id ∈ pre.map ToolCall.id := by
  intro pre
  induction pre with
  | nil =>
    intro acc subs _
    have hres : callLoop world acc subs ([] ++ c :: post) =
        (subs, some (PyErr.valueError "Unknown function: %s" c.funcName)) := by
      simp only [List.nil_append, callLoop, hargs]
      rw [if_neg hname]
    rw [hres]
    exact ⟨rfl, fun b hb o ho => Or.inl ⟨b, hb, ho⟩⟩
  | cons d pre2 ih =>
    intro acc subs hpre
    have hd : goodNewsCall d = true := hpre d (List.mem_cons_self d pre2)
    have hpre2 : ∀ x ∈ pre2, goodNewsCall x = true :=
      fun x hx => hpre x (List.mem_cons_of_mem d hx)
    simp only [goodNewsCall, Bool.and_eq_true, beq_iff_eq] at hd
    obtain ⟨hdname, hdargs⟩ := hd
    cases hda : d.arguments with
    | malformed => rw [hda] at hdargs; simp at hdargs
    | object tOpt =>
      cases tOpt with
      | none => rw [hda] at hdargs; simp at hdargs
      | some t =>
        have hstep : callLoop world acc subs ((d :: pre2) ++ c :: post) =
            callLoop world
              (acc ++ [⟨d.id, strOutput (get_news t (world t)).1⟩])
              (subs ++ [acc ++ [⟨d.id, strOutput (get_news t (world t)).1⟩]])
              (pre2 ++ c :: post) := by
          simp only [List.cons_append, callLoop, hda]
          rw [if_pos hdname]
          rfl
        rw [hstep]
        obtain ⟨ha, hmem⟩ := ih
          (acc ++ [⟨d.id, strOutput (get_news t (world t)).1⟩])
          (subs ++ [acc ++ [⟨d.id, strOutput (get_news t (world t)).1⟩]])
          hpre2
        refine ⟨ha, ?_⟩
        intro b hb o ho
        rcases hmem b hb o ho with ⟨b0, hb0, hob0⟩ | hacc | hid2
        · rcases List.mem_append.mp hb0 with hb0s | hb0n
          · exact Or.inl ⟨b0, hb0s, hob0⟩
          · have hb0e : b0 =
                acc ++ [⟨d.id, strOutput (get_news t (world t)).1⟩] := by
              simpa using hb0n
            rw [hb0e] at hob0
            rcases List.mem_append.mp hob0 with hoa | hon
            · exact Or.inr (Or.inl hoa)
            · have hoe : o =
                  (⟨d.id, strOutput (get_news t (world t)).1⟩ : ToolOutput) := by
                simpa using hon
              refine Or.inr (Or.inr ?_)
              simp [hoe]
        · rcases List.mem_append.mp hacc with hoa | hon
          · exact Or.inr (Or.inl hoa)
          · have hoe : o =
                (⟨d.id, strOutput (get_news t (world t)).1⟩ : ToolOutput) := by
              simpa using hon
            refine Or.inr (Or.inr ?_)
            simp [hoe]
        · refine Or.inr (Or.inr ?_)
          simp only [List.map_cons, List.mem_cons]
          exact Or.inr hid2

/-- Claim C6: for a requires-action cycle whose pending calls reach a
call named other than get_news, the dispatcher raises a fatal ValueError
carrying the unrecognized name, and no submitted batch contains an output
for that call. The calls before it are assumed well-formed get_news calls
so that the dispatcher reaches the offending call, whose arguments are
assumed to parse as JSON, since json.loads runs before the name test. -/
theorem call_required_unknown_name_fatal (world : String → HttpResult)
    (pre : List ToolCall) (c : ToolCall) (post : List ToolCall)
    (topicOpt : Option String)
    (hpre : ∀ d ∈ pre, goodNewsCall d = true)
    (hname : ¬c.funcName = "get_news")
    (hargs : c.arguments = ArgsJson.object topicOpt)
    (hid : c.id ∉ pre.map ToolCall.id) :
    (call_required_functions world true (pre ++ c :: post)).2 =
        some (PyErr.valueError "Unknown function: %s" c.funcName) ∧
    ∀ b ∈ (call_required_functions world true (pre ++ c :: post)).1, ∀ o ∈ b,
      o.tool_call_id ≠ c.id := by
  have h := callLoop_unknown_aux world c post topicOpt hname hargs pre [] []
    hpre
  constructor
  · simpa [call_required_functions] using h.1
  · intro b hb o ho hoc
    have h2 := h.2 b (by simpa [call_required_functions] using hb) o ho
    rcases h2 with ⟨b0, hb0, _⟩ | hacc | hmem
    · simp at hb0
    · simp at hacc
    · rw [hoc] at hmem
      exact hid hmem

/-- Witness for claim C6: one well-formed get_news call followed by a
call for an unregistered name. -/
theorem call_required_unknown_name_fatal_witness :
    (∀ d ∈ goodPre, goodNewsCall d = true) ∧
    ¬unknownCall.funcName = "get_news" ∧
    unknownCall.arguments = ArgsJson.object (some "AAPL") ∧
    unknownCall.id ∉ goodPre.map ToolCall.id ∧
    ((call_required_functions downWorld true
          (goodPre ++ unknownCall :: [])).2 =
        some (PyErr.valueError "Unknown function: %s" unknownCall.funcName) ∧
      ∀ b ∈ (call_required_functions downWorld true
          (goodPre ++ unknownCall :: [])).1, ∀ o ∈ b,
        o.tool_call_id ≠ unknownCall.id) :=
  ⟨by decide, by decide, rfl, by decide,
    call_required_unknown_name_fatal downWorld goodPre unknownCall []
      (some "AAPL") (by decide) (by decide) rfl (by decide)⟩
